import Mathlib

/-!
Verification of the wrestling-game character-creator server
(`src/server.js`, main variant; `src/unnamed/part_000`, second variant).

The JavaScript code is embedded shallowly:

* JS objects holding numeric stat values (`baseStats`, `statBonuses`,
  the running stat block) become association lists `List (String × Int)`
  with JS property-assignment semantics (`setStat` updates in place,
  appending a fresh key at the end, like JS insertion order).
* JS `undefined` becomes `Option.none`; a JS function that can throw
  becomes a function into `Option`/`Except`.
* `String(x)` coercion of an absent id becomes `Option.getD "undefined"`,
  matching `String(undefined) === "undefined"`.
-/

/-- A stat block / bonus table: a JS object with numeric values,
as an insertion-ordered association list. -/
abbrev StatMap := List (String × Int)

/-- Property read: `m[k]`, `none` for an absent key. -/
def getStat (m : StatMap) (k : String) : Option Int :=
  (m.find? (fun p => p.1 == k)).map (fun p => p.2)

/-- JS read `(m[k] || 0)`: absent keys read as zero. -/
def statOr0 (m : StatMap) (k : String) : Int :=
  (getStat m k).getD 0

/-- Property write `m[k] = v`: update in place if the key exists,
otherwise append (JS insertion order). -/
def setStat : StatMap → String → Int → StatMap
  | [], k, v => [(k, v)]
  | (k', v') :: t, k, v =>
      if k' == k then (k, v) :: t else (k', v') :: setStat t k v

/-- A catalog item (`presets.json` entry): `id`, optional `baseStats`
(archetypes), optional additive `statBonuses`, and the optional scalar
fields the composite metrics read (`damage` on attire, `armor` on masks). -/
structure Item where
  id : String
  baseStats : Option StatMap := none
  statBonuses : Option StatMap := none
  damage : Option Int := none
  armor : Option Int := none
deriving DecidableEq, Repr

/-- A normalized catalog as seen by `validateSelection`/`deriveStats`
(after `loadPresets`): the seven category arrays.  An absent category
behaves exactly like an empty one, because `findById(list = [], id)`
defaults a missing array to `[]`. -/
structure Presets where
  archetypes : List Item := []
  attire : List Item := []
  masks : List Item := []
  accessories : List Item := []
  heights : List Item := []
  bodyTypes : List Item := []
  skinColors : List Item := []
deriving DecidableEq, Repr

/-- The `accessoryIds` field of a selection: either an array of ids or
some truthy non-array value (the code's `!Array.isArray` branch). -/
inductive AccField where
  | arr (ids : List String)
  | notArr
deriving DecidableEq, Repr

/-- A character selection; `none` models an absent (`undefined`) field. -/
structure Selection where
  archetypeId : Option String := none
  attireId : Option String := none
  maskId : Option String := none
  accessoryIds : Option AccField := none
  heightId : Option String := none
  bodyTypeId : Option String := none
  skinColorId : Option String := none
deriving DecidableEq, Repr

/-- Source `findById(list, id)`: first item whose `String(i.id)` equals
`String(id)`; an absent id coerces to the string `"undefined"`. -/
def findById (l : List Item) (oid : Option String) : Option Item :=
  l.find? (fun i => i.id == oid.getD "undefined")

/-- Source `validateSelection(presets, selection)` (`src/server.js:83-121`).
The JS pushes error strings into one array in a fixed order; this is the
same list written as a concatenation of the per-field blocks.
A `none` selection covers the `!selection || typeof selection !== 'object'`
structural branch. -/
def validateSelection (p : Presets) (sel : Option Selection) : List String :=
  match sel with
  | none => ["Selection must be an object"]
  | some s =>
      (if (findById p.archetypes s.archetypeId).isNone
        then ["Invalid archetypeId"] else [])
      ++ (if (findById p.attire s.attireId).isNone
        then ["Invalid attireId"] else [])
      ++ (if (findById p.masks s.maskId).isNone
        then ["Invalid maskId"] else [])
      ++ (match s.accessoryIds with
          | none => []
          | some .notArr => ["accessoryIds must be an array"]
          | some (.arr ids) =>
              ids.filterMap (fun aid =>
                if (findById p.accessories (some aid)).isNone
                then some ("Invalid accessoryId: " ++ aid) else none))
      ++ (if (findById p.heights s.heightId).isNone
        then ["Invalid heightId"] else [])
      ++ (if (findById p.bodyTypes s.bodyTypeId).isNone
        then ["Invalid bodyTypeId"] else [])
      ++ (if (findById p.skinColors s.skinColorId).isNone
        then ["Invalid skinColorId"] else [])

/-- The bonus-application loop body shared by every category:
`for (const [k, v] of Object.entries(bonuses)) stats[k] = (stats[k] || 0) + v`. -/
def addEntries (st : StatMap) (bs : StatMap) : StatMap :=
  bs.foldl (fun acc kv => setStat acc kv.1 (statOr0 acc kv.1 + kv.2)) st

/-- Source guard `if (item && item.statBonuses)` around the entry loop. -/
def applyItemBonuses (st : StatMap) (it : Option Item) : StatMap :=
  match it with
  | some i =>
      match i.statBonuses with
      | some bs => addEntries st bs
      | none => st
  | none => st

/-- Source `(selection.accessoryIds || [])` followed by `.map`: an absent field
defaults to `[]`; a truthy non-array makes `.map` throw (`none`). -/
def jsAccessoryList : Option AccField → Option (List String)
  | none => some []
  | some (.arr ids) => some ids
  | some .notArr => none

/-- Source `attire?.damage || 0` (and likewise `mask?.armor || 0`). -/
def itemDamage : Option Item → Int
  | some i => i.damage.getD 0
  | none => 0

def itemArmor : Option Item → Int
  | some i => i.armor.getD 0
  | none => 0

/-- Source `deriveStats(presets, selection)` (`src/server.js:124-178`), translated
step for step.  `none` models the two ways the JS function throws: a
missing archetype (`archetype.baseStats` on `undefined`) and a truthy
non-array `accessoryIds` (`.map` on a non-array). -/
def deriveStats (p : Presets) (s : Selection) : Option StatMap :=
  match findById p.archetypes s.archetypeId with
  | none => none
  | some archetype =>
      match jsAccessoryList s.accessoryIds with
      | none => none
      | some accIds =>
          let attire := findById p.attire s.attireId
          let mask := findById p.masks s.maskId
          let accessories := accIds.map (fun aid => findById p.accessories (some aid))
          let height := findById p.heights s.heightId
          let bodyType := findById p.bodyTypes s.bodyTypeId
          let stats0 := archetype.baseStats.getD []
          let stats1 := applyItemBonuses stats0 attire
          let stats2 := applyItemBonuses stats1 mask
          let stats3 := accessories.foldl applyItemBonuses stats2
          let stats4 := applyItemBonuses stats3 height
          let stats5 := applyItemBonuses stats4 bodyType
          let stats6 := setStat stats5 "showmanship"
            (statOr0 stats5 "charisma" * 2 + statOr0 stats5 "technique")
          let stats7 := setStat stats6 "finishPower"
            (statOr0 stats6 "strength" * 2 + itemDamage attire)
          let stats8 := setStat stats7 "resilience"
            (statOr0 stats7 "stamina" * 2 + itemArmor mask + statOr0 stats7 "vitality")
          some stats8

/-- The spec's description of the accumulation phase, stated in its own
words for the refinement check of the deriver: start from the selected
archetype's `baseStats` (or an empty block if absent); then, in the fixed
order attire, mask, each accessory in selection order, height, body type,
add every stat-bonus entry present on that item into the running block,
creating absent keys at zero. -/
def specDeriveAccumulate (p : Presets) (s : Selection) : StatMap :=
  let base :=
    match findById p.archetypes s.archetypeId with
    | some a => a.baseStats.getD []
    | none => []
  let accIds :=
    match s.accessoryIds with
    | some (.arr ids) => ids
    | _ => []
  let afterAttire := applyItemBonuses base (findById p.attire s.attireId)
  let afterMask := applyItemBonuses afterAttire (findById p.masks s.maskId)
  let afterAcc := accIds.foldl
    (fun st aid => applyItemBonuses st (findById p.accessories (some aid))) afterMask
  let afterHeight := applyItemBonuses afterAcc (findById p.heights s.heightId)
  applyItemBonuses afterHeight (findById p.bodyTypes s.bodyTypeId)

/-- The composite-metric tail of `deriveStats` (`src/server.js:172-175`),
as a function of the accumulated block and the looked-up attire/mask. -/
def applyComposites (attire mask : Option Item) (st : StatMap) : StatMap :=
  let st1 := setStat st "showmanship"
    (statOr0 st "charisma" * 2 + statOr0 st "technique")
  let st2 := setStat st1 "finishPower"
    (statOr0 st1 "strength" * 2 + itemDamage attire)
  setStat st2 "resilience"
    (statOr0 st2 "stamina" * 2 + itemArmor mask + statOr0 st2 "vitality")

/-- The C1 scenario catalog: archetype `luchador` with `baseStats
{strength:5}`, attire `cape` with `statBonuses {strength:2}`, one plain
entry in each remaining category. -/
def scenarioPresets : Presets :=
  { archetypes := [{ id := "luchador", baseStats := some [("strength", 5)] }]
    attire := [{ id := "cape", statBonuses := some [("strength", 2)] }]
    masks := [{ id := "m1" }]
    accessories := []
    heights := [{ id := "h1" }]
    bodyTypes := [{ id := "b1" }]
    skinColors := [{ id := "s1" }] }

/-- The C1 scenario selection (a `skinColorId` is included so the
selection passes `validateSelection`, which checks it unconditionally). -/
def scenarioSelection : Selection :=
  { archetypeId := some "luchador"
    attireId := some "cape"
    maskId := some "m1"
    heightId := some "h1"
    bodyTypeId := some "b1"
    skinColorId := some "s1" }

example : validateSelection scenarioPresets (some scenarioSelection) = [] := by decide

example : (deriveStats scenarioPresets scenarioSelection).getD [] =
    [("strength", 7), ("showmanship", 0), ("finishPower", 14), ("resilience", 0)] := by
  decide

lemma getStat_setStat (m : StatMap) (k : String) (v : Int) (k' : String) :
    getStat (setStat m k v) k' = if k' = k then some v else getStat m k' := by
  induction m with
  | nil =>
      by_cases h : k' = k
      · subst h; simp [setStat, getStat, List.find?]
      · have h2 : (k == k') = false := by
          simp only [beq_eq_false_iff_ne, ne_eq]
          exact fun he => h he.symm
        simp [setStat, getStat, List.find?, h2, h]
  | cons p t ih =>
      obtain ⟨pk, pv⟩ := p
      by_cases hpk : pk = k
      · subst hpk
        simp only [setStat, beq_self_eq_true, if_true]
        by_cases h : k' = pk
        · subst h; simp [getStat, List.find?]
        · have h2 : (pk == k') = false := by
            simp only [beq_eq_false_iff_ne, ne_eq]
            exact fun he => h he.symm
          simp [getStat, List.find?, h2, h]
      · have hb : (pk == k) = false := by
          simp only [beq_eq_false_iff_ne, ne_eq]; exact hpk
        by_cases h' : pk = k'
        · subst h'
          simp [setStat, hb, getStat, List.find?, hpk]
        · have hb2 : (pk == k') = false := by
            simp only [beq_eq_false_iff_ne, ne_eq]; exact h'
          simp only [setStat, hb, if_false]
          simp only [getStat, List.find?, hb2]
          exact ih

lemma validate_nil_arch (p : Presets) (s : Selection)
    (h : validateSelection p (some s) = []) :
    (findById p.archetypes s.archetypeId).isSome = true := by
  simp only [validateSelection, List.append_eq_nil] at h
  cases harch : findById p.archetypes s.archetypeId with
  | none => simp [harch] at h
  | some a => rfl

lemma validate_nil_acc (p : Presets) (s : Selection)
    (h : validateSelection p (some s) = []) :
    s.accessoryIds ≠ some .notArr := by
  intro hacc
  simp only [validateSelection, List.append_eq_nil, hacc] at h
  exact List.cons_ne_nil _ _ h.1.1.1.2

/-- Refinement of the deriver against the spec's accumulation: on any
selection that passes validation, `deriveStats` is exactly the spec's
accumulation followed by the code's composite-metric tail. -/
lemma deriveStats_eq_of_valid (p : Presets) (s : Selection)
    (h : validateSelection p (some s) = []) :
    deriveStats p s =
      some (applyComposites (findById p.attire s.attireId)
        (findById p.masks s.maskId) (specDeriveAccumulate p s)) := by
  have harch := validate_nil_arch p s h
  have hacc := validate_nil_acc p s h
  cases harchv : findById p.archetypes s.archetypeId with
  | none => rw [harchv] at harch; simp at harch
  | some a =>
      cases haccv : s.accessoryIds with
      | none =>
          simp only [deriveStats, harchv, haccv, jsAccessoryList,
            specDeriveAccumulate, applyComposites, List.map, List.foldl]
      | some af =>
          cases af with
          | notArr => exact absurd haccv hacc
          | arr ids =>
              simp only [deriveStats, harchv, haccv, jsAccessoryList,
                specDeriveAccumulate, applyComposites, List.foldl_map]

lemma composites_getStat (attire mask : Option Item) (st : StatMap) :
    getStat (applyComposites attire mask st) "showmanship" =
      some (statOr0 (applyComposites attire mask st) "charisma" * 2 +
        statOr0 (applyComposites attire mask st) "technique") ∧
    getStat (applyComposites attire mask st) "finishPower" =
      some (statOr0 (applyComposites attire mask st) "strength" * 2 + itemDamage attire) ∧
    getStat (applyComposites attire mask st) "resilience" =
      some (statOr0 (applyComposites attire mask st) "stamina" * 2 + itemArmor mask +
        statOr0 (applyComposites attire mask st) "vitality") := by
  simp [applyComposites, statOr0, getStat_setStat]

lemma deriveStats_shape (p : Presets) (s : Selection) (st : StatMap)
    (h : deriveStats p s = some st) :
    ∃ base, st = applyComposites (findById p.attire s.attireId)
      (findById p.masks s.maskId) base := by
  cases harch : findById p.archetypes s.archetypeId with
  | none => rw [deriveStats, harch] at h; exact absurd h (by simp)
  | some a =>
      cases hacc : jsAccessoryList s.accessoryIds with
      | none => rw [deriveStats, harch, hacc] at h; exact absurd h (by simp)
      | some accIds =>
          rw [deriveStats, harch, hacc] at h
          refine ⟨applyItemBonuses (applyItemBonuses
            ((accIds.map (fun aid => findById p.accessories (some aid))).foldl
              applyItemBonuses
              (applyItemBonuses (applyItemBonuses (a.baseStats.getD [])
                (findById p.attire s.attireId)) (findById p.masks s.maskId)))
            (findById p.heights s.heightId)) (findById p.bodyTypes s.bodyTypeId), ?_⟩
          exact (Option.some_inj.mp h).symm

/-- C1: for every catalog and every selection that passes validation,
`deriveStats` starts from the selected archetype's `baseStats` (or an
empty block if absent) and adds `statBonuses` entries in the fixed order
attire, mask, each accessory in selection order, height, body type,
creating absent keys at 0 (the spec-worded `specDeriveAccumulate`),
before the composite-metric tail; in particular, on the scenario catalog
(`luchador` with strength 5, `cape` with +2) the derived stat block has
strength 7. -/
theorem c1_derive_accumulation_order :
    (∀ (p : Presets) (s : Selection), validateSelection p (some s) = [] →
      deriveStats p s =
        some (applyComposites (findById p.attire s.attireId)
          (findById p.masks s.maskId) (specDeriveAccumulate p s))) ∧
    getStat ((deriveStats scenarioPresets scenarioSelection).getD []) "strength" =
      some 7 :=
  ⟨fun p s h => deriveStats_eq_of_valid p s h, by decide⟩

/-- Witness for C1 at the scenario input: the validation hypothesis is
discharged by computation. -/
theorem c1_derive_accumulation_order_witness :
    validateSelection scenarioPresets (some scenarioSelection) = [] ∧
    deriveStats scenarioPresets scenarioSelection =
      some (applyComposites (findById scenarioPresets.attire scenarioSelection.attireId)
        (findById scenarioPresets.masks scenarioSelection.maskId)
        (specDeriveAccumulate scenarioPresets scenarioSelection)) :=
  ⟨by decide,
    c1_derive_accumulation_order.1 scenarioPresets scenarioSelection (by decide)⟩

/-- C10: in every stat block returned by `deriveStats`, the values at
`showmanship`, `finishPower` and `resilience` equal exactly the composite
formulas (charisma*2+technique; strength*2+attire damage; stamina*2+mask
armor+vitality, missing inputs zero); any accumulated contribution under
those keys is overwritten. -/
theorem c10_composite_overwrite (p : Presets) (s : Selection) (st : StatMap)
    (h : deriveStats p s = some st) :
    getStat st "showmanship" =
      some (statOr0 st "charisma" * 2 + statOr0 st "technique") ∧
    getStat st "finishPower" =
      some (statOr0 st "strength" * 2 + itemDamage (findById p.attire s.attireId)) ∧
    getStat st "resilience" =
      some (statOr0 st "stamina" * 2 + itemArmor (findById p.masks s.maskId) +
        statOr0 st "vitality") := by
  obtain ⟨base, rfl⟩ := deriveStats_shape p s st h
  exact composites_getStat _ _ base

/-- Witness for C10 at the scenario input. -/
theorem c10_composite_overwrite_witness :
    getStat [("strength", 7), ("showmanship", 0), ("finishPower", 14), ("resilience", 0)]
        "showmanship" =
      some (statOr0 [("strength", 7), ("showmanship", 0), ("finishPower", 14),
          ("resilience", 0)] "charisma" * 2 +
        statOr0 [("strength", 7), ("showmanship", 0), ("finishPower", 14),
          ("resilience", 0)] "technique") ∧
    getStat [("strength", 7), ("showmanship", 0), ("finishPower", 14), ("resilience", 0)]
        "finishPower" =
      some (statOr0 [("strength", 7), ("showmanship", 0), ("finishPower", 14),
          ("resilience", 0)] "strength" * 2 +
        itemDamage (findById scenarioPresets.attire scenarioSelection.attireId)) ∧
    getStat [("strength", 7), ("showmanship", 0), ("finishPower", 14), ("resilience", 0)]
        "resilience" =
      some (statOr0 [("strength", 7), ("showmanship", 0), ("finishPower", 14),
          ("resilience", 0)] "stamina" * 2 +
        itemArmor (findById scenarioPresets.masks scenarioSelection.maskId) +
        statOr0 [("strength", 7), ("showmanship", 0), ("finishPower", 14),
          ("resilience", 0)] "vitality") :=
  c10_composite_overwrite scenarioPresets scenarioSelection _ (by decide)

/-- Per-field resolution flags used to state validator exhaustiveness. -/
def archOk (p : Presets) (s : Selection) : Bool :=
  (findById p.archetypes s.archetypeId).isSome

def attireOk (p : Presets) (s : Selection) : Bool :=
  (findById p.attire s.attireId).isSome

def maskOk (p : Presets) (s : Selection) : Bool :=
  (findById p.masks s.maskId).isSome

def heightOk (p : Presets) (s : Selection) : Bool :=
  (findById p.heights s.heightId).isSome

def bodyOk (p : Presets) (s : Selection) : Bool :=
  (findById p.bodyTypes s.bodyTypeId).isSome

def skinOk (p : Presets) (s : Selection) : Bool :=
  (findById p.skinColors s.skinColorId).isSome

def accOk (p : Presets) (s : Selection) : Bool :=
  match s.accessoryIds with
  | none => true
  | some .notArr => false
  | some (.arr ids) => ids.all (fun aid => (findById p.accessories (some aid)).isSome)

lemma isNone_false_of_isSome {o : Option Item} (h : o.isSome = true) :
    o.isNone = false := by
  cases o <;> simp_all

lemma isNone_true_of_not_isSome {o : Option Item} (h : o.isSome = false) :
    o.isNone = true := by
  cases o <;> simp_all

lemma accBlock_nil (p : Presets) (ids : List String)
    (h : ids.all (fun aid => (findById p.accessories (some aid)).isSome) = true) :
    ids.filterMap (fun aid =>
      if (findById p.accessories (some aid)).isNone
      then some ("Invalid accessoryId: " ++ aid) else none) = [] := by
  refine List.filterMap_eq_nil_iff.mpr (fun aid ha => ?_)
  have := List.all_eq_true.mp h aid ha
  rw [isNone_false_of_isSome this]
  simp

lemma accBlock_of_accOk (p : Presets) (s : Selection) (h : accOk p s = true) :
    (match s.accessoryIds with
      | none => ([] : List String)
      | some .notArr => ["accessoryIds must be an array"]
      | some (.arr ids) =>
          ids.filterMap (fun aid =>
            if (findById p.accessories (some aid)).isNone
            then some ("Invalid accessoryId: " ++ aid) else none)) = [] := by
  unfold accOk at h
  cases hacc : s.accessoryIds with
  | none => rfl
  | some af =>
      cases af with
      | notArr => rw [hacc] at h; exact absurd h (by simp)
      | arr ids => rw [hacc] at h; exact accBlock_nil p ids h

/-- C2 (amended): validation is exhaustive and each single-field violation
names the field — any fully-resolving selection validates to `[]`, and
corrupting exactly one single-id field yields exactly that field's
one violation message (which does not carry the offending id). -/
theorem c2_validate_exhaustive (p : Presets) (s : Selection) :
    (archOk p s = true → attireOk p s = true → maskOk p s = true →
      accOk p s = true → heightOk p s = true → bodyOk p s = true →
      skinOk p s = true → validateSelection p (some s) = []) ∧
    (archOk p s = false → attireOk p s = true → maskOk p s = true →
      accOk p s = true → heightOk p s = true → bodyOk p s = true →
      skinOk p s = true → validateSelection p (some s) = ["Invalid archetypeId"]) ∧
    (archOk p s = true → attireOk p s = false → maskOk p s = true →
      accOk p s = true → heightOk p s = true → bodyOk p s = true →
      skinOk p s = true → validateSelection p (some s) = ["Invalid attireId"]) ∧
    (archOk p s = true → attireOk p s = true → maskOk p s = false →
      accOk p s = true → heightOk p s = true → bodyOk p s = true →
      skinOk p s = true → validateSelection p (some s) = ["Invalid maskId"]) ∧
    (archOk p s = true → attireOk p s = true → maskOk p s = true →
      accOk p s = true → heightOk p s = false → bodyOk p s = true →
      skinOk p s = true → validateSelection p (some s) = ["Invalid heightId"]) ∧
    (archOk p s = true → attireOk p s = true → maskOk p s = true →
      accOk p s = true → heightOk p s = true → bodyOk p s = false →
      skinOk p s = true → validateSelection p (some s) = ["Invalid bodyTypeId"]) ∧
    (archOk p s = true → attireOk p s = true → maskOk p s = true →
      accOk p s = true → heightOk p s = true → bodyOk p s = true →
      skinOk p s = false → validateSelection p (some s) = ["Invalid skinColorId"]) := by
  unfold archOk attireOk maskOk heightOk bodyOk skinOk
  refine ⟨?_, ?_, ?_, ?_, ?_, ?_, ?_⟩ <;>
    · intro h1 h2 h3 h4 h5 h6 h7
      simp only [validateSelection]
      rw [accBlock_of_accOk p s h4]
      first
      | (rw [isNone_false_of_isSome h1, isNone_false_of_isSome h2,
          isNone_false_of_isSome h3, isNone_false_of_isSome h5,
          isNone_false_of_isSome h6, isNone_false_of_isSome h7]; simp)
      | (rw [isNone_true_of_not_isSome h1, isNone_false_of_isSome h2,
          isNone_false_of_isSome h3, isNone_false_of_isSome h5,
          isNone_false_of_isSome h6, isNone_false_of_isSome h7]; simp)
      | (rw [isNone_false_of_isSome h1, isNone_true_of_not_isSome h2,
          isNone_false_of_isSome h3, isNone_false_of_isSome h5,
          isNone_false_of_isSome h6, isNone_false_of_isSome h7]; simp)
      | (rw [isNone_false_of_isSome h1, isNone_false_of_isSome h2,
          isNone_true_of_not_isSome h3, isNone_false_of_isSome h5,
          isNone_false_of_isSome h6, isNone_false_of_isSome h7]; simp)
      | (rw [isNone_false_of_isSome h1, isNone_false_of_isSome h2,
          isNone_false_of_isSome h3, isNone_true_of_not_isSome h5,
          isNone_false_of_isSome h6, isNone_false_of_isSome h7]; simp)
      | (rw [isNone_false_of_isSome h1, isNone_false_of_isSome h2,
          isNone_false_of_isSome h3, isNone_false_of_isSome h5,
          isNone_true_of_not_isSome h6, isNone_false_of_isSome h7]; simp)
      | (rw [isNone_false_of_isSome h1, isNone_false_of_isSome h2,
          isNone_false_of_isSome h3, isNone_false_of_isSome h5,
          isNone_false_of_isSome h6, isNone_true_of_not_isSome h7]; simp)

/-- Witness for C2 at concrete inputs: the scenario selection validates to
`[]`, and corrupting only `archetypeId` yields exactly one violation. -/
theorem c2_validate_exhaustive_witness :
    validateSelection scenarioPresets (some scenarioSelection) = [] ∧
    validateSelection scenarioPresets
      (some { scenarioSelection with archetypeId := some "zzz" }) =
      ["Invalid archetypeId"] :=
  ⟨(c2_validate_exhaustive scenarioPresets scenarioSelection).1
      (by decide) (by decide) (by decide) (by decide) (by decide) (by decide)
      (by decide),
    (c2_validate_exhaustive scenarioPresets
        { scenarioSelection with archetypeId := some "zzz" }).2.1
      (by decide) (by decide) (by decide) (by decide) (by decide) (by decide)
      (by decide)⟩

/-- Substring containment on character lists (whether `needle` occurs
inside `hay`), used to state that a violation message carries an id. -/
def containsSub : List Char → List Char → Bool
  | [], needle => needle.isEmpty
  | c :: t, needle => needle.isPrefixOf (c :: t) || containsSub t needle

/-- C2 counterexample: with `archetypeId` corrupted to the nonexistent id
`"zzz"`, the single violation is `"Invalid archetypeId"`, which does not
name the offending id — refuting the claim that the violation names both
the field and the offending id. -/
theorem c2_violation_lacks_id_cex :
    validateSelection scenarioPresets
      (some { scenarioSelection with archetypeId := some "zzz" }) =
      ["Invalid archetypeId"] ∧
    containsSub "Invalid archetypeId".data "zzz".data = false := by
  decide

lemma acc_msg_ne_skin (aid : String) :
    ("Invalid accessoryId: " ++ aid) ≠ "Invalid skinColorId" := by
  intro h
  have hl := congrArg String.length h
  rw [String.length_append] at hl
  have h1 : ("Invalid accessoryId: " : String).length = 21 := rfl
  have h2 : ("Invalid skinColorId" : String).length = 19 := rfl
  omega

lemma skin_msg_mem_of_not_ok (p : Presets) (s : Selection)
    (h : skinOk p s = false) :
    "Invalid skinColorId" ∈ validateSelection p (some s) := by
  unfold skinOk at h
  simp only [validateSelection]
  rw [isNone_true_of_not_isSome h]
  simp [List.mem_append]

lemma skin_msg_not_mem_of_ok (p : Presets) (s : Selection)
    (h : skinOk p s = true) :
    "Invalid skinColorId" ∉ validateSelection p (some s) := by
  unfold skinOk at h
  intro hmem
  simp only [validateSelection] at hmem
  rw [isNone_false_of_isSome h] at hmem
  simp [List.mem_append, List.mem_filterMap] at hmem
  cases hacc : s.accessoryIds with
  | none => rw [hacc] at hmem; simp at hmem
  | some af =>
      cases af with
      | notArr => rw [hacc] at hmem; simp at hmem
      | arr ids =>
          rw [hacc] at hmem
          obtain ⟨aid, _, hf⟩ := List.mem_filterMap.mp hmem
          by_cases hc : findById p.accessories (some aid) = none
          · rw [if_pos hc] at hf
            exact acc_msg_ne_skin aid (Option.some_inj.mp hf)
          · rw [if_neg hc] at hf
            exact Option.noConfusion hf

/-- C5 (amended): `validateSelection` checks `skinColorId` unconditionally.
With an empty (or, equivalently via the `findById` default, absent)
`skinColors` category every selection receives a `skinColorId` violation;
the violation appears exactly when the supplied `skinColorId` fails to
resolve. -/
theorem c5_skinColor_always_checked :
    (∀ (p : Presets) (s : Selection), p.skinColors = [] →
      "Invalid skinColorId" ∈ validateSelection p (some s)) ∧
    (∀ (p : Presets) (s : Selection), skinOk p s = false →
      "Invalid skinColorId" ∈ validateSelection p (some s)) ∧
    (∀ (p : Presets) (s : Selection), skinOk p s = true →
      "Invalid skinColorId" ∉ validateSelection p (some s)) := by
  refine ⟨fun p s h => ?_, skin_msg_mem_of_not_ok, skin_msg_not_mem_of_ok⟩
  have hf : skinOk p s = false := by unfold skinOk; rw [h]; rfl
  exact skin_msg_mem_of_not_ok p s hf

/-- The scenario catalog with its `skinColors` category emptied. -/
def emptySkinPresets : Presets := { scenarioPresets with skinColors := [] }

/-- The scenario selection with `skinColorId` omitted. -/
def noSkinSelection : Selection := { scenarioSelection with skinColorId := none }

/-- Witness for C5 at concrete inputs. -/
theorem c5_skinColor_always_checked_witness :
    "Invalid skinColorId" ∈ validateSelection emptySkinPresets (some noSkinSelection) ∧
    "Invalid skinColorId" ∉ validateSelection scenarioPresets (some scenarioSelection) :=
  ⟨c5_skinColor_always_checked.1 emptySkinPresets noSkinSelection rfl,
    c5_skinColor_always_checked.2.2 scenarioPresets scenarioSelection (by decide)⟩

/-- C5 counterexample: with an empty `skinColors` category and
`skinColorId` omitted, the otherwise-valid scenario selection is rejected
with a `skinColorId` violation — refuting the claim that `validate`
accepts such a selection. -/
theorem c5_empty_skin_rejected_cex :
    validateSelection emptySkinPresets (some noSkinSelection) =
      ["Invalid skinColorId"] := by
  decide

/-!
Persistence-layer write discipline (claim C3).  A `writeJSON` call is
modelled as the trace of file-system operations it performs; atomicity of
the canonical collection file means its path is only ever the destination
of a rename, never the target of a direct (interruptible) write.
-/

/-- File-system operations performed by the two `writeJSON` variants. -/
inductive FsOp where
  | write (path : String) (data : String)
  | rename (src dst : String)
  | mkdir (path : String)
deriving DecidableEq, Repr

/-- The `writeJSON` of `src/server.js:27-29`: a single direct
`fs.writeFile(filePath, ...)` on the canonical path. -/
def writeJSONserver (filePath data : String) : List FsOp :=
  [FsOp.write filePath data]

/-- The `writeJSON` of `src/unnamed/part_000:49-55`: ensure the directory,
write `filePath + '.tmp'`, then `renameSync` it onto the canonical path. -/
def writeJSONpart000 (dir : String) (dirExists : Bool) (filePath data : String) :
    List FsOp :=
  (if dirExists then [] else [FsOp.mkdir dir])
    ++ [FsOp.write (filePath ++ ".tmp") data,
        FsOp.rename (filePath ++ ".tmp") filePath]

/-- Staged-write discipline for a canonical path: content reaches it only
through a rename, never through a direct write (a direct write is
observable half-done; a rename is not). -/
def atomicFor (canonical : String) (ops : List FsOp) : Bool :=
  ops.all (fun op =>
    match op with
    | .write p _ => !(p == canonical)
    | .rename _ _ => true
    | .mkdir _ => true)

/-- The canonical character-collection file name (`characters.json` in
both variants, under their respective data directories). -/
def charactersPath : String := "characters.json"

lemma tmp_ne_self (p : String) : (p ++ ".tmp") ≠ p := by
  intro h
  have hl := congrArg String.length h
  rw [String.length_append] at hl
  have : (".tmp" : String).length = 4 := rfl
  omega

/-- C3 (amended): the `part_000` variant stages every collection write at
`path + ".tmp"` and installs it with a single rename, while the
`server.js` variant writes the canonical file directly, so only the
former satisfies the staged-write discipline. -/
theorem c3_write_staging (dir : String) (dirExists : Bool) (data : String) :
    atomicFor charactersPath (writeJSONpart000 dir dirExists charactersPath data) = true ∧
    atomicFor charactersPath (writeJSONserver charactersPath data) = false := by
  constructor
  · cases dirExists <;>
      simp [writeJSONpart000, atomicFor, tmp_ne_self charactersPath]
  · simp [writeJSONserver, atomicFor]

/-- C3 counterexample: the `server.js` `writeJSON` trace writes the
canonical collection file directly — refuting the claim that every write
of the collection is staged at a temporary location and installed by a
single rename. -/
theorem c3_server_write_direct_cex :
    atomicFor charactersPath (writeJSONserver charactersPath "[]") = false ∧
    writeJSONserver charactersPath "[]" = [FsOp.write charactersPath "[]"] := by
  decide

/-!
Catalog loading (claim C6).  The raw presets document may use legacy
category names; `server.js` aliases them and then throws on the first
missing required category, `part_000` collects all missing categories.
The thrown message's `Missing:` segment is modelled structurally as a
`missingCats` list.
-/

/-- The raw presets document: canonical and legacy category keys, each
possibly absent. -/
structure RawPresets where
  archetypes : Option (List Item) := none
  classes : Option (List Item) := none
  attire : Option (List Item) := none
  weapons : Option (List Item) := none
  masks : Option (List Item) := none
  armors : Option (List Item) := none
  accessories : Option (List Item) := none
  items : Option (List Item) := none
  heights : Option (List Item) := none
  bodyTypes : Option (List Item) := none
  skinColors : Option (List Item) := none
deriving DecidableEq, Repr

/-- The legacy-key normalization of `src/server.js:54-65`:
`classes → archetypes`, `weapons → attire`, `armors → masks`,
`items → accessories`, each only when the canonical key is absent. -/
def applyAliases (r : RawPresets) : RawPresets :=
  { r with
    archetypes := match r.archetypes with | some a => some a | none => r.classes
    attire := match r.attire with | some a => some a | none => r.weapons
    masks := match r.masks with | some a => some a | none => r.armors
    accessories := match r.accessories with | some a => some a | none => r.items }

/-- Catalog-load failures; `missingCats` is the list of category names the
thrown message reports after `Missing:`. -/
inductive LoadErr where
  | noPresets
  | missingCats (cats : List String)
deriving DecidableEq, Repr

/-- Required categories checked by `src/server.js:68`. -/
def requiredServer : List String :=
  ["archetypes", "attire", "masks", "accessories", "heights", "bodyTypes",
    "skinColors"]

/-- Required categories checked by `src/unnamed/part_000:63`. -/
def requiredPart000 : List String :=
  ["archetypes", "attire", "masks", "accessories", "heights", "bodyTypes"]

/-- Dynamic `!presets[key]` lookup on the raw document. -/
def catAbsent (r : RawPresets) (k : String) : Bool :=
  if k == "archetypes" then r.archetypes.isNone
  else if k == "attire" then r.attire.isNone
  else if k == "masks" then r.masks.isNone
  else if k == "accessories" then r.accessories.isNone
  else if k == "heights" then r.heights.isNone
  else if k == "bodyTypes" then r.bodyTypes.isNone
  else if k == "skinColors" then r.skinColors.isNone
  else false

/-- The `loadPresets` of `src/server.js:45-76`: alias resolution, then a loop
over the required keys that throws at the FIRST absent one (modelled with
`find?`, which returns the first match like the loop's first `throw`). -/
def loadPresetsServer (raw : Option RawPresets) : Except LoadErr Presets :=
  match raw with
  | none => .error .noPresets
  | some r0 =>
      let r := applyAliases r0
      match requiredServer.find? (fun k => catAbsent r k) with
      | some k => .error (.missingCats [k])
      | none =>
          .ok { archetypes := r.archetypes.getD []
                attire := r.attire.getD []
                masks := r.masks.getD []
                accessories := r.accessories.getD []
                heights := r.heights.getD []
                bodyTypes := r.bodyTypes.getD []
                skinColors := r.skinColors.getD [] }

/-- The `loadPresets` of `src/unnamed/part_000:58-71`: no alias resolution,
collects ALL missing required categories (`required.filter`), throws
listing them, and defaults `skinColors` to an empty array. -/
def loadPresetsPart000 (raw : Option RawPresets) : Except LoadErr Presets :=
  match raw with
  | none => .error .noPresets
  | some r =>
      let missing := requiredPart000.filter (fun k => catAbsent r k)
      if missing.isEmpty then
        .ok { archetypes := r.archetypes.getD []
              attire := r.attire.getD []
              masks := r.masks.getD []
              accessories := r.accessories.getD []
              heights := r.heights.getD []
              bodyTypes := r.bodyTypes.getD []
              skinColors := r.skinColors.getD [] }
      else .error (.missingCats missing)

/-- C6 (amended): on a document with several required categories still
missing after alias resolution, the `server.js` loader's failure names
exactly one (the first) missing category, while the `part_000` loader's
failure lists every missing category. -/
theorem c6_loader_missing_report :
    (∀ (r : RawPresets) (l : List String),
      loadPresetsServer (some r) = .error (.missingCats l) →
      ∃ k, l = [k] ∧ catAbsent (applyAliases r) k = true) ∧
    (∀ r : RawPresets,
      requiredPart000.filter (fun k => catAbsent r k) ≠ [] →
      loadPresetsPart000 (some r) =
        .error (.missingCats (requiredPart000.filter (fun k => catAbsent r k)))) ∧
    (∀ (r : RawPresets) (k : String), k ∈ requiredPart000 →
      catAbsent r k = true →
      k ∈ requiredPart000.filter (fun k => catAbsent r k)) := by
  refine ⟨fun r l h => ?_, fun r h => ?_, fun r k hk ha => ?_⟩
  · simp only [loadPresetsServer] at h
    cases hf : requiredServer.find? (fun k => catAbsent (applyAliases r) k) with
    | none => rw [hf] at h; exact absurd h (by simp)
    | some k =>
        rw [hf] at h
        injection h with h2
        injection h2 with h3
        exact ⟨k, h3.symm, List.find?_some hf⟩
  · simp only [loadPresetsPart000]
    cases hm : requiredPart000.filter (fun k => catAbsent r k) with
    | nil => exact absurd hm h
    | cons a t => simp [hm]
  · exact List.mem_filter.mpr ⟨hk, ha⟩

/-- A raw document in which, after alias resolution, both `masks` and
`heights` are missing (`archetypes` is supplied through the legacy
`classes` key). -/
def rawMissingTwo : RawPresets :=
  { classes := some []
    attire := some []
    accessories := some []
    bodyTypes := some []
    skinColors := some [] }

/-- Witness for C6 at the concrete document. -/
theorem c6_loader_missing_report_witness :
    (∃ k, ["masks"] = [k] ∧ catAbsent (applyAliases rawMissingTwo) k = true) ∧
    loadPresetsPart000 (some rawMissingTwo) =
      .error (.missingCats (requiredPart000.filter
        (fun k => catAbsent rawMissingTwo k))) ∧
    "masks" ∈ requiredPart000.filter (fun k => catAbsent rawMissingTwo k) :=
  ⟨c6_loader_missing_report.1 rawMissingTwo ["masks"] rfl,
    c6_loader_missing_report.2.1 rawMissingTwo (by decide),
    c6_loader_missing_report.2.2 rawMissingTwo "masks" (by decide) (by decide)⟩

/-- C6 counterexample: with `masks` and `heights` both missing after alias
resolution, the `server.js` loader's failure names only `masks` — refuting
the claim that it lists every still-missing category. -/
theorem c6_first_missing_only_cex :
    loadPresetsServer (some rawMissingTwo) = .error (.missingCats ["masks"]) ∧
    catAbsent (applyAliases rawMissingTwo) "heights" = true ∧
    "heights" ∉ (["masks"] : List String) :=
  ⟨rfl, by decide, by decide⟩

/-!
Concurrency of mutations (claim C4).  A create handler performs
`readJSON` (a suspension point) and later `writeJSON`; two in-flight
creates therefore interleave at those points.  The machine below runs two
creates A and B as read/write steps over the shared collection file; a
schedule is the order in which their steps are dispatched.  `server.js`
has no mutual exclusion, so every schedule is an admissible execution.
-/

/-- State of two in-flight create requests over the shared collection:
the persisted list, each request's read snapshot, and each request's
program counter (0 = before read, 1 = before write, 2 = done). -/
structure CreateMachine where
  file : List String
  snapA : Option (List String) := none
  snapB : Option (List String) := none
  pcA : Nat := 0
  pcB : Nat := 0
deriving DecidableEq, Repr

/-- One step of create A: first its read (snapshot the file), then its
write (persist snapshot + its record, as `data.characters.push` followed
by `writeJSON`). -/
def stepA (recA : String) (m : CreateMachine) : CreateMachine :=
  if m.pcA = 0 then { m with snapA := some m.file, pcA := 1 }
  else if m.pcA = 1 then { m with file := m.snapA.getD [] ++ [recA], pcA := 2 }
  else m

def stepB (recB : String) (m : CreateMachine) : CreateMachine :=
  if m.pcB = 0 then { m with snapB := some m.file, pcB := 1 }
  else if m.pcB = 1 then { m with file := m.snapB.getD [] ++ [recB], pcB := 2 }
  else m

/-- Run a schedule (`false` dispatches a step of A, `true` of B). -/
def runSched (recA recB : String) : List Bool → CreateMachine → CreateMachine
  | [], m => m
  | t :: rest, m =>
      runSched recA recB rest (if t then stepB recB m else stepA recA m)

def initMachine : CreateMachine := { file := [] }

/-- C4 (amended): creates whose read-modify-write cycles do not overlap
each appear exactly once, but `server.js` has no serialization, and under
the overlapped schedule read-A, read-B, write-A, write-B the second write
is based on a snapshot missing A's record, so A's create is lost. -/
theorem c4_create_interleaving (a b : String) :
    (runSched a b [false, false, true, true] initMachine).file = [a, b] ∧
    (runSched a b [false, true, false, true] initMachine).file = [b] :=
  ⟨rfl, rfl⟩

/-- C4 counterexample: both creates run to completion under the
overlapped schedule, yet the final collection has size 1 and A's record
appears zero times — refuting the claim that every concurrent create
appears exactly once in a subsequent list of size N. -/
theorem c4_lost_update_cex :
    (runSched "a" "b" [false, true, false, true] initMachine).file = ["b"] ∧
    (runSched "a" "b" [false, true, false, true] initMachine).pcA = 2 ∧
    (runSched "a" "b" [false, true, false, true] initMachine).pcB = 2 ∧
    "a" ∉ (runSched "a" "b" [false, true, false, true] initMachine).file ∧
    (runSched "a" "b" [false, true, false, true] initMachine).file.length = 1 := by
  decide

/-!
The character document store (claims C7, C8, C9).  The collection file's
content is modelled up to the distinctions the code makes: absent file,
empty text (`JSON.parse('')` throws), otherwise-unparseable text, or a
parsed JSON value.  A parsed value is `jnull` (null), `jfalsy` (false, 0
or an empty string — falsy for the `!existing` check), or `jobj chars` —
any truthy value, where `chars = some l` when a usable `characters` array
is present and `none` otherwise (bare arrays, objects without the key and
truthy scalars all behave identically in this code path).
-/

/-- A persisted character record (`src/server.js:243-251`). -/
structure Character where
  id : String
  name : String
  selection : Selection
  derivedStats : StatMap
  createdAt : String
  updatedAt : String
  notes : String
deriving DecidableEq, Repr

inductive JVal where
  | jnull
  | jfalsy
  | jobj (chars : Option (List Character))
deriving DecidableEq, Repr

inductive FileVal where
  | absent
  | emptyText
  | malformed
  | val (v : JVal)
deriving DecidableEq, Repr

/-- Source `readJSON(filePath, fallback)` of `src/server.js:17-25` applied to the
collection file: the fallback only covers ENOENT (absent); empty or
unparseable text makes `JSON.parse` throw and the error is re-thrown. -/
def readJSONchars (f : FileVal) (fallback : JVal) : Except Unit JVal :=
  match f with
  | .absent => .ok fallback
  | .emptyText => .error ()
  | .malformed => .error ()
  | .val v => .ok v

def jsTruthy : JVal → Bool
  | .jnull => false
  | .jfalsy => false
  | .jobj _ => true

/-- Source `ensureCharactersFile` (`src/server.js:181-186`): read with `null`
fallback, and (re)write `{ characters: [] }` only when falsy. -/
def ensureCharactersFile (f : FileVal) : Except Unit FileVal :=
  match readJSONchars f .jnull with
  | .error e => .error e
  | .ok v => if jsTruthy v then .ok f else .ok (.val (.jobj (some [])))

/-- Source read `data.characters || []`. -/
def charsOf : JVal → List Character
  | .jobj (some l) => l
  | _ => []

/-- Route GET `/api/characters` (`src/server.js:202-211`): ensure, re-read,
answer `data.characters || []`; the pair carries the resulting file
state. -/
def listChars (f : FileVal) : Except Unit (List Character × FileVal) :=
  match ensureCharactersFile f with
  | .error e => .error e
  | .ok f1 =>
      match readJSONchars f1 .jnull with
      | .error e => .error e
      | .ok v => .ok (charsOf v, f1)

def listResult (f : FileVal) : Except Unit (List Character) :=
  (listChars f).map (fun x => x.1)

/-- JS `Array.prototype.findIndex`. -/
def jsFindIndex {α : Type} (p : α → Bool) : List α → Option Nat
  | [] => none
  | a :: t => if p a then some 0 else (jsFindIndex p t).map (· + 1)

def getIdx {α : Type} : List α → Nat → Option α
  | [], _ => none
  | a :: _, 0 => some a
  | _ :: t, n + 1 => getIdx t n

def setIdx {α : Type} : List α → Nat → α → List α
  | [], _, _ => []
  | _ :: t, 0, x => x :: t
  | a :: t, n + 1, x => a :: setIdx t n x

def removeIdx {α : Type} : List α → Nat → List α
  | [], _ => []
  | _ :: t, 0 => t
  | a :: t, n + 1 => a :: removeIdx t n

/-- JS truthiness of an optional string field (`some ""` is falsy). -/
def jsTruthyStr : Option String → Bool
  | some s => !(s == "")
  | none => false

structure CreatePayload where
  name : Option String := none
  selection : Option Selection := none
  notes : Option String := none
deriving DecidableEq, Repr

inductive CreateRes where
  | created (c : Character)
  | invalidSel (errs : List String)
  | badReq
  | ioFail
deriving DecidableEq, Repr

/-- Route POST `/api/characters` (`src/server.js:228-264`): guard, validate
(before any collection access), derive, ensure, read, push, write.
`newId`/`now` stand for `generateId()`/`nowISO()`. -/
def createChar (p : Presets) (pl : CreatePayload) (newId now : String)
    (f : FileVal) : CreateRes × FileVal :=
  match pl.selection with
  | none => (.badReq, f)
  | some s =>
      if jsTruthyStr pl.name = false then (.badReq, f)
      else
        let errs := validateSelection p (some s)
        if errs.isEmpty then
          match deriveStats p s with
          | none => (.ioFail, f)
          | some ds =>
              let newChar : Character :=
                { id := newId, name := pl.name.getD "", selection := s
                  derivedStats := ds, createdAt := now, updatedAt := now
                  notes := pl.notes.getD "" }
              match ensureCharactersFile f with
              | .error _ => (.ioFail, f)
              | .ok f1 =>
                  match readJSONchars f1 .jnull with
                  | .error _ => (.ioFail, f1)
                  | .ok v =>
                      (.created newChar, .val (.jobj (some (charsOf v ++ [newChar]))))
        else (.invalidSel errs, f)

inductive DeleteRes where
  | deleted (c : Character)
  | notFound
  | ioFail
deriving DecidableEq, Repr

/-- Route DELETE `/api/characters/:id` (`src/server.js:305-319`). -/
def deleteChar (f : FileVal) (cid : String) : DeleteRes × FileVal :=
  match ensureCharactersFile f with
  | .error _ => (.ioFail, f)
  | .ok f1 =>
      match readJSONchars f1 .jnull with
      | .error _ => (.ioFail, f1)
      | .ok v =>
          let cs := charsOf v
          match jsFindIndex (fun c => c.id == cid) cs with
          | none => (.notFound, f1)
          | some i =>
              match getIdx cs i with
              | none => (.ioFail, f1)
              | some removed =>
                  (.deleted removed, .val (.jobj (some (removeIdx cs i))))

structure UpdatePayload where
  name : Option String := none
  selection : Option Selection := none
  notes : Option String := none
deriving DecidableEq, Repr

inductive UpdateRes where
  | updated (c : Character)
  | invalidSel (errs : List String)
  | badReq
  | notFound
  | ioFail
deriving DecidableEq, Repr

/-- Route PUT `/api/characters/:id` (`src/server.js:267-302`): guard (at least
one of a truthy name, a selection, a present notes field), validate a
supplied selection, ensure, read, locate by id, apply only the supplied
fields (re-deriving stats only for a new selection), always refresh
`updatedAt`, write back. -/
def updateChar (p : Presets) (cid : String) (pl : UpdatePayload) (now : String)
    (f : FileVal) : UpdateRes × FileVal :=
  if (!jsTruthyStr pl.name && pl.selection.isNone && pl.notes.isNone) then
    (.badReq, f)
  else
    let selErrs := match pl.selection with
      | some s => validateSelection p (some s)
      | none => []
    if selErrs.isEmpty then
      match ensureCharactersFile f with
      | .error _ => (.ioFail, f)
      | .ok f1 =>
          match readJSONchars f1 .jnull with
          | .error _ => (.ioFail, f1)
          | .ok v =>
              let cs := charsOf v
              match jsFindIndex (fun c => c.id == cid) cs with
              | none => (.notFound, f1)
              | some i =>
                  match getIdx cs i with
                  | none => (.ioFail, f1)
                  | some old =>
                      let c1 := if jsTruthyStr pl.name
                        then { old with name := pl.name.getD "" } else old
                      match pl.selection with
                      | some s =>
                          match deriveStats p s with
                          | none => (.ioFail, f1)
                          | some ds =>
                              let c2 := { c1 with selection := s, derivedStats := ds }
                              let c3 := match pl.notes with
                                | some n => { c2 with notes := n }
                                | none => c2
                              let c4 := { c3 with updatedAt := now }
                              (.updated c4, .val (.jobj (some (setIdx cs i c4))))
                      | none =>
                          let c3 := match pl.notes with
                            | some n => { c1 with notes := n }
                            | none => c1
                          let c4 := { c3 with updatedAt := now }
                          (.updated c4, .val (.jobj (some (setIdx cs i c4))))
    else (.invalidSel selErrs, f)

/-- The `part_000` collection file: a bare JSON array of records
(modelled opaquely), or absent/empty/unparseable/non-array content. -/
inductive P000File where
  | absent
  | emptyText
  | malformed
  | arr (recs : List String)
  | nonArr
deriving DecidableEq, Repr

/-- Source `ensureCharactersFileSync` (`src/unnamed/part_000:74-93`): any absent,
empty, unparseable or non-array state is replaced by `[]` and read as the
empty collection; an existing array is kept.  Returns the parsed
collection and the resulting file state. -/
def ensureCharactersFileSync : P000File → List String × P000File
  | .absent => ([], .arr [])
  | .emptyText => ([], .arr [])
  | .malformed => ([], .arr [])
  | .nonArr => ([], .arr [])
  | .arr l => (l, .arr l)

/-- Route GET `/api/characters` in `part_000` (`readJSONSafe` with `[]` default
plus the `Array.isArray` guard, `src/unnamed/part_000:124-127`). -/
def listCharsPart000 : P000File → List String
  | .arr l => l
  | _ => []

/-- C7 (amended): `server.js` treats only an ABSENT collection file as
empty (lazily initializing it); empty or unparseable content makes its
operations fail with an error rather than an empty collection.  The
`part_000` variant treats absent, empty, unparseable and non-array
content all as the empty collection and reinitializes the file. -/
theorem c7_corrupt_collection_handling :
    listChars .absent = .ok ([], .val (.jobj (some []))) ∧
    (∀ v, listResult (.val v) = .ok (charsOf v)) ∧
    listChars .emptyText = .error () ∧
    listChars .malformed = .error () ∧
    (deleteChar .malformed "x").1 = .ioFail ∧
    ensureCharactersFileSync .absent = ([], .arr []) ∧
    ensureCharactersFileSync .emptyText = ([], .arr []) ∧
    ensureCharactersFileSync .malformed = ([], .arr []) ∧
    ensureCharactersFileSync .nonArr = ([], .arr []) ∧
    listCharsPart000 .malformed = [] := by
  refine ⟨rfl, fun v => ?_, rfl, rfl, rfl, rfl, rfl, rfl, rfl, rfl⟩
  cases v with
  | jnull => rfl
  | jfalsy => rfl
  | jobj oc => rfl

/-- C7 counterexample: an unparseable (or empty-text) collection file
makes `server.js`'s list operation fail — refuting the claim that every
absent/empty/unparseable state is treated as the empty collection. -/
theorem c7_malformed_fails_cex :
    listChars .malformed = .error () ∧ listResult .emptyText = .error () :=
  ⟨rfl, rfl⟩

lemma jsFindIndex_none_of {α : Type} (p : α → Bool) (l : List α)
    (h : ∀ a ∈ l, p a = false) : jsFindIndex p l = none := by
  induction l with
  | nil => rfl
  | cons a t ih =>
      simp only [jsFindIndex, h a (List.mem_cons_self a t), Bool.false_eq_true,
        if_false]
      rw [ih (fun x hx => h x (List.mem_cons_of_mem a hx))]
      rfl

lemma listChars_ok_shape (f : FileVal) (cs : List Character) (f1 : FileVal)
    (h : listChars f = .ok (cs, f1)) :
    ∃ v1, f1 = .val v1 ∧ jsTruthy v1 = true ∧ charsOf v1 = cs ∧
      ensureCharactersFile f = .ok f1 ∧ readJSONchars f1 .jnull = .ok v1 := by
  cases f with
  | absent =>
      have he : listChars FileVal.absent = .ok ([], .val (.jobj (some []))) := rfl
      rw [he] at h
      injection h with h2
      obtain ⟨ha, hb⟩ := Prod.mk.injEq .. |>.mp h2
      subst ha; subst hb
      exact ⟨.jobj (some []), rfl, rfl, rfl, rfl, rfl⟩
  | emptyText => exact absurd h (by simp [listChars, ensureCharactersFile, readJSONchars])
  | malformed => exact absurd h (by simp [listChars, ensureCharactersFile, readJSONchars])
  | val v =>
      cases hv : jsTruthy v with
      | true =>
          have he : listChars (FileVal.val v) = .ok (charsOf v, .val v) := by
            simp [listChars, ensureCharactersFile, readJSONchars, hv]
          rw [he] at h
          injection h with h2
          obtain ⟨ha, hb⟩ := Prod.mk.injEq .. |>.mp h2
          subst ha; subst hb
          exact ⟨v, rfl, hv, rfl, by simp [ensureCharactersFile, readJSONchars, hv], rfl⟩
      | false =>
          have he : listChars (FileVal.val v) = .ok ([], .val (.jobj (some []))) := by
            simp [listChars, ensureCharactersFile, readJSONchars, hv, charsOf]
          rw [he] at h
          injection h with h2
          obtain ⟨ha, hb⟩ := Prod.mk.injEq .. |>.mp h2
          subst ha; subst hb
          refine ⟨.jobj (some []), rfl, rfl, ?_, ?_, rfl⟩
          · rfl
          · simp [ensureCharactersFile, readJSONchars, hv]

/-- C8: error results leave the persisted collection unchanged — a create
whose selection has violations fails with the full violation list and
touches no file state, and a delete of a nonexistent id yields NotFound
with a subsequent list identical. -/
theorem c8_errors_no_persist :
    (∀ (p : Presets) (pl : CreatePayload) (s : Selection) (newId now : String)
      (f : FileVal),
      pl.selection = some s → jsTruthyStr pl.name = true →
      validateSelection p (some s) ≠ [] →
      createChar p pl newId now f = (.invalidSel (validateSelection p (some s)), f)) ∧
    (∀ (f : FileVal) (cid : String) (cs : List Character) (f1 : FileVal),
      listChars f = .ok (cs, f1) → (∀ c ∈ cs, c.id ≠ cid) →
      deleteChar f cid = (.notFound, f1) ∧ listChars f1 = .ok (cs, f1)) := by
  constructor
  · intro p pl s newId now f hsel hname hval
    have hemp : (validateSelection p (some s)).isEmpty = false := by
      cases hv : validateSelection p (some s) with
      | nil => exact absurd hv hval
      | cons a t => rfl
    simp [createChar, hsel, hname, hemp]
  · intro f cid cs f1 h hn
    obtain ⟨v1, hf1, htr, hcs, hens, hread⟩ := listChars_ok_shape f cs f1 h
    have hfind : jsFindIndex (fun c => c.id == cid) (charsOf v1) = none := by
      rw [hcs]
      exact jsFindIndex_none_of _ cs
        (fun a ha => beq_eq_false_iff_ne.mpr (hn a ha))
    constructor
    · simp [deleteChar, hens, hread, hfind]
    · subst hf1
      simp [listChars, ensureCharactersFile, readJSONchars, htr, hcs]

/-- Witness for C8: a create with a corrupted archetype id fails with the
violation list and leaves the (initialized-empty) store untouched, and a
delete of an id absent from the store is NotFound with the list
unchanged. -/
theorem c8_errors_no_persist_witness :
    createChar scenarioPresets
      { name := some "Rey",
        selection := some { scenarioSelection with archetypeId := some "zzz" } }
      "id1" "t1" (.val (.jobj (some []))) =
      (.invalidSel (validateSelection scenarioPresets
        (some { scenarioSelection with archetypeId := some "zzz" })),
        .val (.jobj (some []))) ∧
    deleteChar (.val (.jobj (some []))) "nope" =
      (.notFound, .val (.jobj (some []))) ∧
    listChars (.val (.jobj (some []))) = .ok ([], .val (.jobj (some []))) :=
  ⟨c8_errors_no_persist.1 scenarioPresets _ _ "id1" "t1" _ rfl (by decide) (by decide),
    (c8_errors_no_persist.2 (.val (.jobj (some []))) "nope" [] _ rfl
      (by intro c hc; exact absurd hc (List.not_mem_nil c))).1,
    (c8_errors_no_persist.2 (.val (.jobj (some []))) "nope" [] _ rfl
      (by intro c hc; exact absurd hc (List.not_mem_nil c))).2⟩

/-- C9: update applies only the supplied fields — id and createdAt are
never touched, derivedStats is unchanged when no new selection is given
and re-derived exactly when one is, name/notes are unchanged when not
supplied, and updatedAt is always refreshed. -/
theorem c9_update_supplied_fields
    (p : Presets) (cid : String) (pl : UpdatePayload) (now : String)
    (cs : List Character) (i : Nat) (old : Character)
    (hfind : jsFindIndex (fun c => c.id == cid) cs = some i)
    (hget : getIdx cs i = some old)
    (hguard : (!jsTruthyStr pl.name && pl.selection.isNone && pl.notes.isNone) = false)
    (hval : ∀ s, pl.selection = some s → validateSelection p (some s) = []) :
    ∃ c', updateChar p cid pl now (.val (.jobj (some cs))) =
        (.updated c', .val (.jobj (some (setIdx cs i c')))) ∧
      c'.id = old.id ∧ c'.createdAt = old.createdAt ∧ c'.updatedAt = now ∧
      (jsTruthyStr pl.name = false → c'.name = old.name) ∧
      (pl.notes = none → c'.notes = old.notes) ∧
      (pl.selection = none → c'.selection = old.selection ∧
        c'.derivedStats = old.derivedStats) ∧
      (∀ s, pl.selection = some s → c'.selection = s ∧
        deriveStats p s = some c'.derivedStats) := by
  cases hsel : pl.selection with
  | none =>
      cases hnm : jsTruthyStr pl.name with
      | true =>
          cases hnt : pl.notes with
          | none =>
              refine ⟨{ old with name := pl.name.getD "", updatedAt := now },
                ?_, rfl, rfl, rfl, ?_, fun _ => rfl, fun _ => ⟨rfl, rfl⟩, ?_⟩
              · simp [updateChar, hsel, hguard, hfind, hget, hnm, hnt, ensureCharactersFile, readJSONchars, charsOf, jsTruthy]
              · intro h; exact absurd h (by simp)
              · intro s hs; exact Option.noConfusion hs
          | some n =>
              refine ⟨{ old with name := pl.name.getD "", notes := n, updatedAt := now },
                ?_, rfl, rfl, rfl, ?_, ?_, fun _ => ⟨rfl, rfl⟩, ?_⟩
              · simp [updateChar, hsel, hguard, hfind, hget, hnm, hnt, ensureCharactersFile, readJSONchars, charsOf, jsTruthy]
              · intro h; exact absurd h (by simp)
              · intro h; exact Option.noConfusion h
              · intro s hs; exact Option.noConfusion hs
      | false =>
          cases hnt : pl.notes with
          | none => simp [hnm, hsel, hnt] at hguard
          | some n =>
              refine ⟨{ old with notes := n, updatedAt := now },
                ?_, rfl, rfl, rfl, fun _ => rfl, ?_, fun _ => ⟨rfl, rfl⟩, ?_⟩
              · simp [updateChar, hsel, hguard, hfind, hget, hnm, hnt, ensureCharactersFile, readJSONchars, charsOf, jsTruthy]
              · intro h; exact Option.noConfusion h
              · intro s hs; exact Option.noConfusion hs
  | some s =>
      have hv : validateSelection p (some s) = [] := hval s hsel
      have hds := deriveStats_eq_of_valid p s hv
      cases hnm : jsTruthyStr pl.name with
      | true =>
          cases hnt : pl.notes with
          | none =>
              refine ⟨{ old with
                  name := pl.name.getD ""
                  selection := s
                  derivedStats := applyComposites (findById p.attire s.attireId)
                    (findById p.masks s.maskId) (specDeriveAccumulate p s)
                  updatedAt := now },
                ?_, rfl, rfl, rfl, ?_, fun _ => rfl, ?_, ?_⟩
              · simp [updateChar, hsel, hguard, hfind, hget, hnm, hnt, hv, hds, ensureCharactersFile, readJSONchars, charsOf, jsTruthy]
              · intro h; exact absurd h (by simp)
              · intro h; exact Option.noConfusion h
              · intro s' hs'
                have he2 : s' = s := (Option.some_inj.mp hs').symm
                subst he2
                exact ⟨rfl, hds⟩
          | some n =>
              refine ⟨{ old with
                  name := pl.name.getD ""
                  selection := s
                  derivedStats := applyComposites (findById p.attire s.attireId)
                    (findById p.masks s.maskId) (specDeriveAccumulate p s)
                  notes := n
                  updatedAt := now },
                ?_, rfl, rfl, rfl, ?_, ?_, ?_, ?_⟩
              · simp [updateChar, hsel, hguard, hfind, hget, hnm, hnt, hv, hds, ensureCharactersFile, readJSONchars, charsOf, jsTruthy]
              · intro h; exact absurd h (by simp)
              · intro h; exact Option.noConfusion h
              · intro h; exact Option.noConfusion h
              · intro s' hs'
                have he2 : s' = s := (Option.some_inj.mp hs').symm
                subst he2
                exact ⟨rfl, hds⟩
      | false =>
          cases hnt : pl.notes with
          | none =>
              refine ⟨{ old with
                  selection := s
                  derivedStats := applyComposites (findById p.attire s.attireId)
                    (findById p.masks s.maskId) (specDeriveAccumulate p s)
                  updatedAt := now },
                ?_, rfl, rfl, rfl, fun _ => rfl, fun _ => rfl, ?_, ?_⟩
              · simp [updateChar, hsel, hguard, hfind, hget, hnm, hnt, hv, hds, ensureCharactersFile, readJSONchars, charsOf, jsTruthy]
              · intro h; exact Option.noConfusion h
              · intro s' hs'
                have he2 : s' = s := (Option.some_inj.mp hs').symm
                subst he2
                exact ⟨rfl, hds⟩
          | some n =>
              refine ⟨{ old with
                  selection := s
                  derivedStats := applyComposites (findById p.attire s.attireId)
                    (findById p.masks s.maskId) (specDeriveAccumulate p s)
                  notes := n
                  updatedAt := now },
                ?_, rfl, rfl, rfl, fun _ => rfl, ?_, ?_, ?_⟩
              · simp [updateChar, hsel, hguard, hfind, hget, hnm, hnt, hv, hds, ensureCharactersFile, readJSONchars, charsOf, jsTruthy]
              · intro h; exact Option.noConfusion h
              · intro h; exact Option.noConfusion h
              · intro s' hs'
                have he2 : s' = s := (Option.some_inj.mp hs').symm
                subst he2
                exact ⟨rfl, hds⟩

/-- A concrete stored character used to witness the update claim. -/
def oldCharacter : Character :=
  { id := "w1"
    name := "Old"
    selection := scenarioSelection
    derivedStats := [("strength", 7)]
    createdAt := "t0"
    updatedAt := "t0"
    notes := "" }

/-- An update payload supplying only a new name. -/
def updNamePayload : UpdatePayload := { name := some "New" }

/-- Witness for C9: updating only the name of a stored character. -/
theorem c9_update_supplied_fields_witness :
    ∃ c', updateChar scenarioPresets "w1" updNamePayload "t1"
        (.val (.jobj (some [oldCharacter]))) =
        (.updated c', .val (.jobj (some (setIdx [oldCharacter] 0 c')))) ∧
      c'.id = oldCharacter.id ∧ c'.createdAt = oldCharacter.createdAt ∧
      c'.updatedAt = "t1" ∧
      (jsTruthyStr updNamePayload.name = false → c'.name = oldCharacter.name) ∧
      (updNamePayload.notes = none → c'.notes = oldCharacter.notes) ∧
      (updNamePayload.selection = none → c'.selection = oldCharacter.selection ∧
        c'.derivedStats = oldCharacter.derivedStats) ∧
      (∀ s, updNamePayload.selection = some s → c'.selection = s ∧
        deriveStats scenarioPresets s = some c'.derivedStats) :=
  c9_update_supplied_fields scenarioPresets "w1" updNamePayload "t1"
    [oldCharacter] 0 oldCharacter rfl rfl rfl (fun _ hs => Option.noConfusion hs)
